import Mathlib

/-!
# Tunnel: endpoint derivation, tunnel supervision, session server and SFTP shell

A shallow embedding of `pkg/util.go`, `pkg/host.go`, `pkg/connect.go` and
`pkg/sftp.go`.  Go strings that are hashed (host identifiers) are kept as raw
byte sequences; text that is only assembled or compared (remote specs, remote
paths, printed lines) is kept as `String` or `List Char`.  Capabilities that
live outside the package (file system, UUID parser, SFTP server, glob matcher)
are parameters of the embedded functions.
-/

deriving instance DecidableEq for Except

namespace Tunnel

/-! ## util.go -/

/-- One byte of a Go string. -/
abbrev Byte := Fin 256

/-- Go `string` seen as its byte sequence. -/
abbrev GoString := List Byte

/-- Offset basis of `hash/fnv` for 32-bit sums. -/
def offset32 : Nat := 2166136261

/-- Multiplier of `hash/fnv` for 32-bit sums. -/
def prime32 : Nat := 16777619

/-- `math.MaxUint16`, that is `1<<16 - 1`. -/
def mathMaxUint16 : Nat := 65535

/-- `fnv.New32()`: a fresh `sum32` holding the offset basis. -/
def fnvNew32 : Nat := offset32

/-- `(*sum32).Write`: for every byte, multiply by `prime32` in `uint32`
arithmetic and then xor the byte in.  It reports no error. -/
def sum32Write (hash : Nat) (data : GoString) : Nat × Option String :=
  (data.foldl (fun h c => ((h * prime32) % 2 ^ 32) ^^^ c.val) hash, none)

/-- `getPortFromStr` of util.go.  The Go pair `(-1, err)` is `Except.error`. -/
def getPortFromStr (s : GoString) : Except String Int :=
  match sum32Write fnvNew32 s with
  | (_, some err) => Except.error ("hash input strings: " ++ err)
  | (hash, none) => Except.ok (Int.ofNat (hash % mathMaxUint16))

/-- The 32-bit FNV-1 hash as the FNV reference describes it: start from the
offset basis and, byte after byte, multiply by the FNV prime modulo `2^32` and
xor with the byte. -/
def fnv1 : Nat → GoString → Nat
  | h, [] => h
  | h, c :: rest => fnv1 (((h * 16777619) % 4294967296) ^^^ c.val) rest

/-- FNV-1 of a byte string from the 32-bit offset basis. -/
def fnv1Hash (s : GoString) : Nat := fnv1 2166136261 s

/-- What the host process can observe of its surroundings: `os.ReadFile`,
`uuid.Parse` (only whether it fails matters) and `GetFreePort`. -/
structure Env where
  readFile : GoString → Except String GoString
  uuidParse : GoString → Except String Unit
  getFreePort : Except String Int

/-- `getHostID` of util.go. -/
def getHostID (env : Env) (hostID : GoString) : Except String GoString :=
  match env.readFile hostID with
  | Except.ok b => Except.ok b
  | Except.error _ =>
    match env.uuidParse hostID with
    | Except.ok _ => Except.ok hostID
    | Except.error _ =>
      Except.error "host id should be either uuid or path to file with it"

/-! ## host.go: configuration and remote spec -/

/-- `Config` of host.go; `RetryPeriod` in nanoseconds. -/
structure Config where
  HostID : GoString
  Proxy : String
  Auth : String
  RetryPeriod : Int
  RelayServer : String
  EnableSFTP : Bool

/-- `strings.Join`. -/
def stringsJoin : List String → String → String
  | [], _ => ""
  | [a], _ => a
  | a :: b :: rest, sep => a ++ sep ++ stringsJoin (b :: rest) sep

/-- `fmt.Sprintf("%d", n)` for a Go `int`. -/
def sprintfD (n : Int) : String := toString n

/-- The fields of `chc.Config` that `startChiselClient` fills in. -/
structure ChiselConfig where
  Server : String
  Proxy : String
  Auth : String
  Remotes : List String
  Verbose : Bool
  MaxRetryCount : Int
deriving DecidableEq, Repr

/-- The configuration `startChiselClient` builds before it spawns the
supervisor goroutine: `parts` grows by the three guarded appends. -/
def startChiselClient (lp rp : Int) (reversed : Bool) (cfg : Config) : ChiselConfig :=
  let parts : List String := []
  let parts := if reversed then parts ++ ["R"] else parts
  let parts := if lp > 0 then parts ++ [sprintfD lp] else parts
  let parts := parts ++ [sprintfD rp]
  { Server := cfg.RelayServer
    Proxy := cfg.Proxy
    Auth := cfg.Auth
    Remotes := [stringsJoin parts ":"]
    Verbose := true
    MaxRetryCount := 1 }

/-! ## Path helpers used by sftp.go (Unix forms of `path` and `path/filepath`) -/

/-- Remote and local paths, character by character. -/
abbrev Path := List Char

/-- Cut a path at every `/`; the pieces may be empty. -/
def splitSlash : Path → List Path
  | [] => [[]]
  | c :: cs =>
    match splitSlash cs with
    | [] => [[c]]
    | hd :: tl => if c = '/' then [] :: hd :: tl else (c :: hd) :: tl

/-- Join path elements with single slashes. -/
def joinSlash : List Path → Path
  | [] => []
  | [a] => a
  | a :: b :: rest => a ++ '/' :: joinSlash (b :: rest)

/-- The element loop of `path.Clean`: `out` holds the elements written so far,
last one first.  Empty and `.` elements are skipped; `..` removes the last
written element when there is one that is not itself `..`, is dropped at the
root, and is kept otherwise. -/
def cleanElems (rooted : Bool) : List Path → List Path → List Path
  | out, [] => out.reverse
  | out, e :: es =>
    if e = [] ∨ e = ['.'] then cleanElems rooted out es
    else if e = ['.', '.'] then
      match out with
      | top :: below =>
        if top = ['.', '.'] then cleanElems rooted (e :: out) es
        else cleanElems rooted below es
      | [] => if rooted then cleanElems rooted [] es else cleanElems rooted [e] es
    else cleanElems rooted (e :: out) es

/-- `path.Clean` (and `filepath.Clean` on Unix). -/
def pathClean (path : Path) : Path :=
  if path = [] then ['.']
  else
    let rooted := path.head? = some '/'
    let body := joinSlash (cleanElems rooted [] (splitSlash path))
    if rooted then '/' :: body
    else if body = [] then ['.'] else body

/-- `path.Join`, which `(*sftp.Client).Join` forwards to, and `filepath.Join`
on Unix: empty elements are ignored, the rest is joined by `/` and cleaned; the
result is empty when every element is empty. -/
def pathJoin (elem : List Path) : Path :=
  match elem.filter (fun e => e ≠ []) with
  | [] => []
  | es => pathClean (joinSlash es)

/-- `filepath.IsAbs` on Unix. -/
def filepathIsAbs (path : Path) : Bool := path.head? = some '/'

/-- `filepath.Base` on Unix. -/
def filepathBase (path : Path) : Path :=
  if path = [] then ['.']
  else
    let stripped := (path.reverse.dropWhile (fun c => c = '/')).reverse
    let last := (stripped.reverse.takeWhile (fun c => c ≠ '/')).reverse
    if last = [] then ['/'] else last

/-- `filepath.Dir` on Unix. -/
def filepathDir (path : Path) : Path :=
  pathClean (path.reverse.dropWhile (fun c => c ≠ '/')).reverse

/-! ## sftp.go -/

/-- What the shell reads of an `os.FileInfo`. -/
structure FileInfo where
  name : Path
  isDir : Bool
deriving DecidableEq, Repr

/-- The remote side of `*sftp.Client`, over a remote file-system state `σ`.
`RealPath` returns a Go pair, whose string the caller uses even on error. -/
structure SftpServer (σ : Type) where
  realPath : σ → Path → Path × Option String
  stat : σ → Path → Except String FileInfo
  readDir : σ → Path → Except String (List FileInfo)
  remove : σ → Path → σ × Option String
  removeDirectory : σ → Path → σ × Option String

/-- The `sftpClient` struct together with the state of the remote file system
behind its `*sftp.Client` and the lines printed so far with `fmt.Println`. -/
structure SftpClient (σ : Type) where
  remote : σ
  currDir : Path
  out : List String

/-- `fmt.Println` of one line. -/
def println {σ : Type} (c : SftpClient σ) (line : String) : SftpClient σ :=
  { c with out := c.out ++ [line] }

/-- `(*sftpClient).remotePath`. -/
def remotePath {σ : Type} (srv : SftpServer σ) (c : SftpClient σ) (path : Path) :
    Path × SftpClient σ :=
  if filepathIsAbs path then (path, c)
  else
    match srv.realPath c.remote (pathJoin [c.currDir, path]) with
    | (p, some err) => (p, println c err)
    | (p, none) => (p, c)

/-- `(*sftpClient).cd`. -/
def cd {σ : Type} (srv : SftpServer σ) (c : SftpClient σ) (args : List Path) :
    SftpClient σ :=
  match args with
  | [arg] =>
    match remotePath srv c arg with
    | (targetDir, c1) =>
      match srv.stat c1.remote targetDir with
      | Except.error err => println c1 err
      | Except.ok s =>
        if !s.isDir then println c1 "cannot change directory"
        else { c1 with currDir := targetDir }
  | _ => println c "only one argument is accepted"

/-- The glob capability `doublestar.PathMatch`, a Go pair `(matched, err)`. -/
abbrev PathMatch := Path → Path → Bool × Option String

/-- The guard of the `rm` loop: an entry is processed when `PathMatch` gives
no error and reports a match. -/
def matched (pm : PathMatch) (base : Path) (entry : FileInfo) : Bool :=
  match pm base entry.name with
  | (m, err) => !(err.isSome || !m)

/-- The `for _, entry := range entries` loop of `rm`. -/
def rmLoop {σ : Type} (srv : SftpServer σ) (pm : PathMatch) (dir base : Path) :
    SftpClient σ → List FileInfo → SftpClient σ
  | c, [] => c
  | c, entry :: rest =>
    if !matched pm base entry then rmLoop srv pm dir base c rest
    else
      let p := pathJoin [dir, entry.name]
      match srv.stat c.remote p with
      | Except.error err => rmLoop srv pm dir base (println c err) rest
      | Except.ok s =>
        if s.isDir then
          match srv.removeDirectory c.remote p with
          | (remote, some err) =>
            rmLoop srv pm dir base (println { c with remote := remote } ("error: " ++ err)) rest
          | (remote, none) => rmLoop srv pm dir base { c with remote := remote } rest
        else
          match srv.remove c.remote p with
          | (remote, some err) =>
            rmLoop srv pm dir base (println { c with remote := remote } ("error: " ++ err)) rest
          | (remote, none) => rmLoop srv pm dir base { c with remote := remote } rest

/-- `(*sftpClient).rm`. -/
def rm {σ : Type} (srv : SftpServer σ) (pm : PathMatch) (c : SftpClient σ)
    (args : List Path) : SftpClient σ :=
  match args with
  | [arg] =>
    match remotePath srv c arg with
    | (path, c1) =>
      let dir := filepathDir path
      let base := filepathBase path
      match srv.readDir c1.remote dir with
      | Except.error err => println c1 err
      | Except.ok entries => rmLoop srv pm dir base c1 entries
  | _ => println c "usage: rm pattern"

/-! ## An in-memory remote file system for concrete runs -/

/-- Remote file system as the list of its nodes: absolute clean path and
whether the node is a directory. -/
abbrev MemFS := List (Path × Bool)

/-- Look a node up by path. -/
def MemFS.lookup (fs : MemFS) (p : Path) : Option Bool :=
  (fs.find? (fun n => n.1 = p)).map (fun n => n.2)

/-- Nodes directly inside directory `d`. -/
def MemFS.children (fs : MemFS) (d : Path) : MemFS :=
  fs.filter (fun n => n.1 ≠ d ∧ filepathDir n.1 = d)

/-- An SFTP server over `MemFS`.  `RealPath` cleans lexically; `Remove` deletes
a file; `RemoveDirectory` is the protocol's `SSH_FXP_RMDIR`, which deletes a
directory only when nothing is inside it. -/
def memServer : SftpServer MemFS where
  realPath := fun _ p => (pathClean p, none)
  stat := fun fs p =>
    match fs.lookup p with
    | some d => Except.ok { name := filepathBase p, isDir := d }
    | none => Except.error "file does not exist"
  readDir := fun fs d =>
    match fs.lookup d with
    | some true =>
      Except.ok ((fs.children d).map (fun n => { name := filepathBase n.1, isDir := n.2 }))
    | _ => Except.error "file does not exist"
  remove := fun fs p =>
    match fs.lookup p with
    | some false => (fs.filter (fun n => n.1 ≠ p), none)
    | _ => (fs, some "failure")
  removeDirectory := fun fs p =>
    match fs.lookup p with
    | some true =>
      if fs.children p = [] then (fs.filter (fun n => n.1 ≠ p), none)
      else (fs, some "directory not empty")
    | _ => (fs, some "failure")

/-- Any run of non-slash characters may be skipped before `f` accepts. -/
def globStar (f : Path → Bool) : Path → Bool
  | [] => f []
  | c :: cs => f (c :: cs) || (c != '/' && globStar f cs)

/-- Glob matching for patterns made of literal characters, `?` and `*`, the
fragment of `doublestar.PathMatch` used in the concrete runs. -/
def globMatch : Path → Path → Bool
  | [], name => name.isEmpty
  | '*' :: ps, name => globStar (globMatch ps) name
  | _ :: _, [] => false
  | p :: ps, c :: cs => (p == '?' || p == c) && globMatch ps cs

/-- The matcher `globMatch` as a `PathMatch` capability. -/
def globPathMatch : PathMatch := fun pattern name => (globMatch pattern name, none)

/-! ## host.go and connect.go: the two flows -/

/-- What a flow starts once the port is known. -/
inductive Call where
  | startChiselClient (lp rp : Int) (reversed : Bool) (ccfg : ChiselConfig)
  | startSSHServer (addr : String) (port : Int) (enableSFTP : Bool)
  | sshDial (addr : String) (timeout : Int)
deriving DecidableEq, Repr

/-- `Host` up to the point where it blocks in the SSH server: an early error
return, or the calls it makes with the derived port. -/
def Host (env : Env) (cfg : Config) : Except String (List Call) :=
  match getHostID env cfg.HostID with
  | Except.error err => Except.error ("get host id: " ++ err)
  | Except.ok id =>
    match getPortFromStr id with
    | Except.error err => Except.error ("get port from host id: " ++ err)
    | Except.ok port =>
      Except.ok
        [ Call.startChiselClient 0 port true (startChiselClient 0 port true cfg),
          Call.startSSHServer ("127.0.0.1:" ++ sprintfD port) port cfg.EnableSFTP ]

/-- `Connect` up to the SSH dial: an early error return, or the calls it makes
with the derived remote port and the free local port. -/
def Connect (env : Env) (cfg : Config) : Except String (List Call) :=
  match getHostID env cfg.HostID with
  | Except.error err => Except.error ("get host id: " ++ err)
  | Except.ok id =>
    match getPortFromStr id with
    | Except.error err => Except.error ("get port from host id: " ++ err)
    | Except.ok rp =>
      match env.getFreePort with
      | Except.error err => Except.error ("get local port: " ++ err)
      | Except.ok lp =>
        Except.ok
          [ Call.startChiselClient lp rp false (startChiselClient lp rp false cfg),
            Call.sshDial ("127.0.0.1:" ++ sprintfD lp) cfg.RetryPeriod ]

/-! ## host.go: the supervisor goroutine of `startChiselClient` -/

/-- Which case of the `select` fires. -/
inductive Selected where
  | ctxDone
  | tick
deriving DecidableEq, Repr

/-- What happens in one pass of the `for` loop: the error, if any, of
`chc.NewClient`, of `c.Start` and of `c.Wait`, and the selected case. -/
structure CycleOutcome where
  newClientErr : Option String
  startErr : Option String
  waitErr : Option String
  selected : Selected

/-- Observable steps of the supervisor; clients are numbered by the pass that
constructed them. -/
inductive SupEvent where
  | newClient (id : Nat)
  | start (id : Nat)
  | wait (id : Nat)
  | logError (msg err : String)
  | close (id : Nat)
  | stopping
deriving DecidableEq, Repr

/-- Steps of one pass on a constructed client, up to the `select`. -/
def runClient (id : Nat) (o : CycleOutcome) : List SupEvent :=
  [SupEvent.newClient id, SupEvent.start id]
    ++ (match o.startErr with
        | some err => [SupEvent.logError "chisel client run" err]
        | none => [])
    ++ [SupEvent.wait id]
    ++ (match o.waitErr with
        | some err => [SupEvent.logError "chisel client run" err]
        | none => [])

/-- The `for` loop of the goroutine, fed with the outcomes of its passes.  The
flag tells whether the goroutine has returned; it is `false` when the given
outcomes end while the loop is still going. -/
def supervise : Nat → List CycleOutcome → List SupEvent × Bool
  | _, [] => ([], false)
  | id, o :: rest =>
    match o.newClientErr with
    | some err => ([SupEvent.logError "new chisel client" err, SupEvent.stopping], true)
    | none =>
      match o.selected with
      | Selected.ctxDone => (runClient id o ++ [SupEvent.close id, SupEvent.stopping], true)
      | Selected.tick =>
        match supervise (id + 1) rest with
        | (evs, stopped) => (runClient id o ++ evs, stopped)

/-! ## host.go: the session handler of `startSSHServer` -/

/-- `ssh.Window`. -/
structure Window where
  Width : Int
  Height : Int
deriving DecidableEq, Repr

/-- `ssh.Pty`. -/
structure Pty where
  Term : String
  Window : Window
deriving DecidableEq, Repr

/-- `pty.Winsize`, rows and columns as `uint16` values. -/
structure Winsize where
  Rows : Nat
  Cols : Nat
deriving DecidableEq, Repr

/-- Go conversion `uint16(n)` of an `int`. -/
def uint16 (n : Int) : Nat := (n % 65536).toNat

/-- The head of `startSSHServer`: `term.GetSize` of the server's own standard
output, with `80, 30` when it fails. -/
def serverSize (termGetSize : Except String (Int × Int)) : Int × Int :=
  match termGetSize with
  | Except.ok (w, h) => (w, h)
  | Except.error _ => (80, 30)

/-- What the handler sees of one session: the result of `s.Pty()`, the
windows delivered on `winCh`, and the failures of the calls it makes. -/
structure Session where
  ptyReq : Pty
  winCh : List Window
  isPty : Bool
  writeErr : Option String
  ptyStartErr : Option String

/-- Steps of the handler. -/
inductive SessionStep where
  | writeString (text : String)
  | exit (code : Int)
  | ptyStartWithSize (arg : String) (termEnv : String) (size : Winsize)
  | ptySetsize (size : Winsize)
  | cmdWait
  | ptyClose
deriving DecidableEq, Repr

/-- The resize goroutine: one `pty.Setsize` per window read from `winCh`. -/
def resizeLoop (winCh : List Window) : List SessionStep :=
  winCh.map (fun win =>
    SessionStep.ptySetsize { Cols := uint16 win.Width, Rows := uint16 win.Height })

/-- The session handler installed by `startSSHServer`, with `w, h` captured
from the enclosing function: the steps of the handler itself and, apart, those
of its resize goroutine. -/
def sessionHandler (w h : Int) (s : Session) : List SessionStep × List SessionStep :=
  if !s.isPty then
    match s.writeErr with
    | some _ => ([SessionStep.writeString "No PTY requested.\n"], [])
    | none =>
      ([SessionStep.writeString "No PTY requested.\n", SessionStep.exit 1], [])
  else
    let start := SessionStep.ptyStartWithSize "sh" ("TERM=" ++ s.ptyReq.Term)
      { Cols := uint16 w, Rows := uint16 h }
    match s.ptyStartErr with
    | some _ => ([start], [])
    | none => ([start, SessionStep.cmdWait, SessionStep.ptyClose], resizeLoop s.winCh)

/-- `startSSHServer` as far as sessions go: the handler it installs. -/
def startSSHServer (termGetSize : Except String (Int × Int)) (s : Session) :
    List SessionStep × List SessionStep :=
  match serverSize termGetSize with
  | (w, h) => sessionHandler w h s

/-! ## Concrete inputs -/

/-- The bytes of `3f2504e0-4f89-41d3-9a0c-0305e82c3301`. -/
def sampleUUID : GoString :=
  [0x33, 0x66, 0x32, 0x35, 0x30, 0x34, 0x65, 0x30, 0x2d, 0x34, 0x66, 0x38, 0x39, 0x2d,
   0x34, 0x31, 0x64, 0x33, 0x2d, 0x39, 0x61, 0x30, 0x63, 0x2d, 0x30, 0x33, 0x30, 0x35,
   0x65, 0x38, 0x32, 0x63, 0x33, 0x33, 0x30, 0x31]

/-- The bytes of `id.txt`. -/
def sampleFileName : GoString := [0x69, 0x64, 0x2e, 0x74, 0x78, 0x74]

/-- The bytes of `host-7` followed by a newline. -/
def sampleContents : GoString := [0x68, 0x6f, 0x73, 0x74, 0x2d, 0x37, 0x0a]

/-- An environment with one file, named `id.txt` and also reachable under the
name `sampleUUID`, a UUID parser that accepts exactly `sampleUUID`, and local
port 40123 free. -/
def sampleEnv : Env where
  readFile := fun name =>
    if name = sampleFileName ∨ name = sampleUUID then Except.ok sampleContents
    else Except.error "no such file or directory"
  uuidParse := fun raw =>
    if raw = sampleUUID then Except.ok () else Except.error "invalid UUID format"
  getFreePort := Except.ok 40123

/-- As `sampleEnv`, with no file at all. -/
def sampleEnvNoFile : Env :=
  { sampleEnv with readFile := fun _ => Except.error "no such file or directory" }

/-- A configuration naming `sampleUUID`. -/
def sampleConfig : Config where
  HostID := sampleUUID
  Proxy := ""
  Auth := "user:pass"
  RetryPeriod := 10000000000
  RelayServer := "relay.example:8080"
  EnableSFTP := false

/-- The remote-mapping spec in the spec's words: the `:`-join of `R` when
reversed, the decimal local port when it is positive, and the decimal remote
port. -/
def remoteSpec (reversed : Bool) (lp rp : Int) : String :=
  ":".intercalate
    ((if reversed then ["R"] else []) ++ (if lp > 0 then [toString lp] else [])
      ++ [toString rp])

/-- A removal request as an SFTP server receives it. -/
inductive Request where
  | remove (p : Path)
  | removeDirectory (p : Path)
deriving DecidableEq, Repr

/-- A server that behaves as `srv` and keeps, next to the state of `srv`, the
removal requests it has received, oldest first. -/
def recording {σ : Type} (srv : SftpServer σ) : SftpServer (σ × List Request) where
  realPath := fun st p => srv.realPath st.1 p
  stat := fun st p => srv.stat st.1 p
  readDir := fun st p => srv.readDir st.1 p
  remove := fun st p =>
    (((srv.remove st.1 p).1, st.2 ++ [Request.remove p]), (srv.remove st.1 p).2)
  removeDirectory := fun st p =>
    (((srv.removeDirectory st.1 p).1, st.2 ++ [Request.removeDirectory p]),
      (srv.removeDirectory st.1 p).2)

/-- The path a removal request names. -/
def Request.target : Request → Path
  | Request.remove p => p
  | Request.removeDirectory p => p

/-- The paths a list of removal requests names. -/
def removalTargets (reqs : List Request) : List Path := reqs.map Request.target

/-- An entry glob-matches `base` when the matcher reports a match and no
error. -/
def globMatches (pm : PathMatch) (base : Path) (e : FileInfo) : Bool :=
  decide (pm base e.name = (true, none))

/-- Paths of the listed entries whose name glob-matches `base`, in listing
order. -/
def matchingPaths (pm : PathMatch) (dir base : Path) (entries : List FileInfo) : List Path :=
  (entries.filter (fun e => globMatches pm base e)).map (fun e => pathJoin [dir, e.name])

/-- What one attempt on path `p` does to the remote state: stat it and, if the
stat succeeds, hand it to `RemoveDirectory` when it is a directory and to
`Remove` otherwise; a failed stat leaves the state as it is. -/
def attemptEntry {σ : Type} (srv : SftpServer σ) (st : σ) (p : Path) : σ :=
  match srv.stat st p with
  | Except.error _ => st
  | Except.ok s => if s.isDir then (srv.removeDirectory st p).1 else (srv.remove st p).1

/-- What one attempt on path `p` does to the shell: a failed stat prints its
error; otherwise one removal request is sent, `RemoveDirectory` for a
directory and `Remove` for anything else, and its error, if any, is printed
after `error:`. -/
def removeEntry {σ : Type} (srv : SftpServer σ) (c : SftpClient σ) (p : Path) :
    SftpClient σ :=
  match srv.stat c.remote p with
  | Except.error err => println c err
  | Except.ok s =>
    let answer := if s.isDir then srv.removeDirectory c.remote p else srv.remove c.remote p
    match answer.2 with
    | none => { c with remote := answer.1 }
    | some err => println { c with remote := answer.1 } ("error: " ++ err)

/-- The removal requests that attempts on `ps`, in order and starting from
state `st`, send to `srv`: none for a path whose stat fails, one
`RemoveDirectory` for a directory, one `Remove` for anything else. -/
def removalsSent {σ : Type} (srv : SftpServer σ) : σ → List Path → List Request
  | _, [] => []
  | st, p :: ps =>
    match srv.stat st p with
    | Except.error _ => removalsSent srv st ps
    | Except.ok s =>
      if s.isDir then
        Request.removeDirectory p :: removalsSent srv (srv.removeDirectory st p).1 ps
      else Request.remove p :: removalsSent srv (srv.remove st p).1 ps

/-- The path `/srv`. -/
def pSrv : Path := ['/', 's', 'r', 'v']

/-- The path `/srv/app.log`. -/
def pAppLog : Path := ['/', 's', 'r', 'v', '/', 'a', 'p', 'p', '.', 'l', 'o', 'g']

/-- The path `/srv/logs`. -/
def pLogs : Path := ['/', 's', 'r', 'v', '/', 'l', 'o', 'g', 's']

/-- The path `/srv/logs/old`. -/
def pLogsOld : Path := ['/', 's', 'r', 'v', '/', 'l', 'o', 'g', 's', '/', 'o', 'l', 'd']

/-- The pattern `*.log`. -/
def patLog : Path := ['*', '.', 'l', 'o', 'g']

/-- The relative name `logs`. -/
def nLogs : Path := ['l', 'o', 'g', 's']

/-- The relative name `app.log`. -/
def nAppLog : Path := ['a', 'p', 'p', '.', 'l', 'o', 'g']

/-- Directory `/srv` holding the file `app.log` and the empty directory `logs`. -/
def fsFlat : MemFS := [(pSrv, true), (pAppLog, false), (pLogs, true)]

/-- Directory `/srv` holding the directory `logs`, which holds the file `old`. -/
def fsNested : MemFS := [(pSrv, true), (pLogs, true), (pLogsOld, false)]

/-- The path `/srv/zed`. -/
def pZed : Path := ['/', 's', 'r', 'v', '/', 'z', 'e', 'd']

/-- The relative name `zed`. -/
def nZed : Path := ['z', 'e', 'd']

/-- Directory `/srv` holding the file `app.log`, the directory `logs` with the
file `old` inside, and the file `zed`. -/
def fsMixed : MemFS :=
  [(pSrv, true), (pAppLog, false), (pLogs, true), (pLogsOld, false), (pZed, false)]

/-- A shell whose current remote directory is `/srv`. -/
def shellAt (fs : MemFS) : SftpClient MemFS :=
  { remote := fs, currDir := pSrv, out := [] }

/-- A shell in `/srv` talking to a recording server that has received no
removal request yet. -/
def recordedShellAt (fs : MemFS) : SftpClient (MemFS × List Request) :=
  { remote := (fs, []), currDir := pSrv, out := [] }

/-- As `memServer`, but the stat of `/srv/app.log` is refused. -/
def guardedServer : SftpServer MemFS :=
  { memServer with
    stat := fun fs p =>
      if p = pAppLog then Except.error "permission denied" else memServer.stat fs p }

/-- The pattern `*`. -/
def patAny : Path := ['*']

/-- The size handed to the first `pty.StartWithSize` among the steps. -/
def startedSize : List SessionStep → Option Winsize
  | [] => none
  | SessionStep.ptyStartWithSize _ _ size :: _ => some size
  | _ :: rest => startedSize rest

/-- A session that asked for a PTY with a window 120 columns wide and 40 rows
high, later resized to 100 by 20. -/
def sampleSession : Session where
  ptyReq := { Term := "xterm-256color", Window := { Width := 120, Height := 40 } }
  winCh := [{ Width := 100, Height := 20 }]
  isPty := true
  writeErr := none
  ptyStartErr := none

/-- A pass whose client starts with an error, waits cleanly, and is followed
by the retry tick. -/
def passFailedStart : CycleOutcome where
  newClientErr := none
  startErr := some "connection refused"
  waitErr := none
  selected := Selected.tick

/-- A pass whose client runs cleanly and is followed by cancellation. -/
def passCancelled : CycleOutcome where
  newClientErr := none
  startErr := none
  waitErr := none
  selected := Selected.ctxDone

/-- A pass in which the client cannot be constructed. -/
def passNoClient : CycleOutcome where
  newClientErr := some "invalid server address"
  startErr := none
  waitErr := none
  selected := Selected.tick

/-! ## Theorems: endpoint derivation -/

theorem sum32Write_eq_fnv1 (h : Nat) (s : GoString) : sum32Write h s = (fnv1 h s, none) := by
  unfold sum32Write
  congr 1
  induction s generalizing h with
  | nil => rfl
  | cons c rest ih =>
    simp only [List.foldl_cons, fnv1]
    exact ih _

theorem getPortFromStr_eq (s : GoString) :
    getPortFromStr s = Except.ok (Int.ofNat (fnv1Hash s % 65535)) := by
  unfold getPortFromStr fnvNew32 offset32
  rw [sum32Write_eq_fnv1]
  rfl

/-- C1 (as stated, refuted): for the identifier
`3f2504e0-4f89-41d3-9a0c-0305e82c3301`, `getPortFromStr` does not return the
FNV-1 hash reduced modulo 65536. -/
theorem getPortFromStr_not_mod_65536 :
    getPortFromStr sampleUUID ≠ Except.ok (Int.ofNat (fnv1Hash sampleUUID % 65536)) := by
  decide

/-- C1 (amended): for every identifier, `getPortFromStr` returns without error
the 32-bit FNV-1 hash of its bytes reduced modulo 65535 (`math.MaxUint16`), a
value between 0 and 65534. -/
theorem getPortFromStr_fnv1_mod_65535 (s : GoString) :
    ∃ port : Int, getPortFromStr s = Except.ok port ∧
      port = Int.ofNat (fnv1Hash s % 65535) ∧ 0 ≤ port ∧ port ≤ 65534 := by
  refine ⟨_, getPortFromStr_eq s, rfl, Int.ofNat_nonneg _, ?_⟩
  have h : fnv1Hash s % 65535 < 65535 := Nat.mod_lt _ (by norm_num)
  have h2 : (Int.ofNat (fnv1Hash s % 65535)) = ((fnv1Hash s % 65535 : Nat) : Int) := rfl
  rw [h2]
  omega

/-- C2: `getHostID` returns the file contents verbatim whenever reading `raw`
as a file succeeds (whether or not `raw` is a UUID); otherwise returns `raw`
when it parses as a UUID; otherwise fails with an error. -/
theorem getHostID_resolution (env : Env) (raw : GoString) :
    (∀ T, env.readFile raw = Except.ok T → getHostID env raw = Except.ok T) ∧
    (∀ e u, env.readFile raw = Except.error e → env.uuidParse raw = Except.ok u →
      getHostID env raw = Except.ok raw) ∧
    (∀ e e2, env.readFile raw = Except.error e → env.uuidParse raw = Except.error e2 →
      ∃ msg, getHostID env raw = Except.error msg) := by
  refine ⟨?_, ?_, ?_⟩
  · intro T hT
    simp [getHostID, hT]
  · intro e u he hu
    simp [getHostID, he, hu]
  · intro e e2 he he2
    simp only [getHostID, he, he2]
    exact ⟨_, rfl⟩

theorem getHostID_resolution_witness :
    getHostID sampleEnv sampleFileName = Except.ok sampleContents ∧
    getHostID sampleEnv sampleUUID = Except.ok sampleContents ∧
    getHostID sampleEnvNoFile sampleUUID = Except.ok sampleUUID ∧
    (∃ msg, getHostID sampleEnvNoFile sampleFileName = Except.error msg) :=
  ⟨(getHostID_resolution sampleEnv sampleFileName).1 sampleContents (by decide),
   (getHostID_resolution sampleEnv sampleUUID).1 sampleContents (by decide),
   (getHostID_resolution sampleEnvNoFile sampleUUID).2.1 "no such file or directory" ()
     rfl (by decide),
   (getHostID_resolution sampleEnvNoFile sampleFileName).2.2 "no such file or directory"
     "invalid UUID format" rfl (by decide)⟩

/-- C3: whenever `getHostID` succeeds on `cfg.HostID`, the host flow and the
connect flow derive one and the same port: the host binds its SSH listener to
it and names it as remote port of its reversed tunnel, and the connect flow
names it as remote port of its tunnel. -/
theorem host_connect_same_port (env : Env) (cfg : Config) (id : GoString)
    (hid : getHostID env cfg.HostID = Except.ok id) :
    ∃ port : Int, getPortFromStr id = Except.ok port ∧
      Host env cfg = Except.ok
        [ Call.startChiselClient 0 port true (startChiselClient 0 port true cfg),
          Call.startSSHServer ("127.0.0.1:" ++ sprintfD port) port cfg.EnableSFTP ] ∧
      (startChiselClient 0 port true cfg).Remotes = ["R:" ++ sprintfD port] ∧
      ∀ lp, env.getFreePort = Except.ok lp →
        Connect env cfg = Except.ok
          [ Call.startChiselClient lp port false (startChiselClient lp port false cfg),
            Call.sshDial ("127.0.0.1:" ++ sprintfD lp) cfg.RetryPeriod ] := by
  refine ⟨_, getPortFromStr_eq id, ?_, ?_, ?_⟩
  · simp [Host, hid, getPortFromStr_eq]
  · simp [startChiselClient, stringsJoin, String.append_assoc]
  · intro lp hlp
    simp [Connect, hid, getPortFromStr_eq, hlp]

theorem host_connect_same_port_witness :
    ∃ port : Int, getPortFromStr sampleContents = Except.ok port ∧
      Host sampleEnv sampleConfig = Except.ok
        [ Call.startChiselClient 0 port true (startChiselClient 0 port true sampleConfig),
          Call.startSSHServer ("127.0.0.1:" ++ sprintfD port) port sampleConfig.EnableSFTP ] ∧
      (startChiselClient 0 port true sampleConfig).Remotes = ["R:" ++ sprintfD port] ∧
      ∀ lp, sampleEnv.getFreePort = Except.ok lp →
        Connect sampleEnv sampleConfig = Except.ok
          [ Call.startChiselClient lp port false (startChiselClient lp port false sampleConfig),
            Call.sshDial ("127.0.0.1:" ++ sprintfD lp) sampleConfig.RetryPeriod ] :=
  host_connect_same_port sampleEnv sampleConfig sampleContents (by decide)

/-- C4: the `Remotes` list built by `startChiselClient` holds exactly one
string, the `:`-join of `R` (iff reversed), the decimal of `lp` (iff `lp > 0`)
and the decimal of `rp`; with reversed and `lp = 0` it is `R:<rp>`, and with
not reversed and `lp > 0` it is `<lp>:<rp>`. -/
theorem startChiselClient_remotes (lp rp : Int) (reversed : Bool) (cfg : Config) :
    (startChiselClient lp rp reversed cfg).Remotes = [remoteSpec reversed lp rp] ∧
    (startChiselClient 0 rp true cfg).Remotes = ["R:" ++ toString rp] ∧
    (0 < lp →
      (startChiselClient lp rp false cfg).Remotes = [toString lp ++ ":" ++ toString rp]) := by
  refine ⟨?_, ?_, ?_⟩
  · cases reversed <;> by_cases h : lp > 0 <;>
      simp [startChiselClient, remoteSpec, stringsJoin, sprintfD, String.intercalate,
        String.intercalate.go, h, String.append_assoc]
  · simp [startChiselClient, stringsJoin, sprintfD, String.append_assoc]
  · intro h
    simp [startChiselClient, stringsJoin, sprintfD, h]

theorem startChiselClient_remotes_witness :
    (startChiselClient 40123 7906 false sampleConfig).Remotes = ["40123:7906"] ∧
    (startChiselClient 0 7906 true sampleConfig).Remotes = ["R:7906"] :=
  ⟨(startChiselClient_remotes 40123 7906 false sampleConfig).2.2 (by decide),
   (startChiselClient_remotes 40123 7906 true sampleConfig).2.1⟩

/-! ## Theorems: SFTP shell -/

theorem remotePath_remote {σ : Type} (srv : SftpServer σ) (c : SftpClient σ) (p : Path) :
    (remotePath srv c p).2.remote = c.remote := by
  unfold remotePath
  split
  · rfl
  · split <;> simp [println]

theorem remotePath_currDir {σ : Type} (srv : SftpServer σ) (c : SftpClient σ) (p : Path) :
    (remotePath srv c p).2.currDir = c.currDir := by
  unfold remotePath
  split
  · rfl
  · split <;> simp [println]

/-- C5: `cd` sets `currDir` to the resolved path when it has exactly one
argument whose resolved path stats as a directory; when the stat fails, when
the path is not a directory, or when the argument count is not one, `currDir`
stays as it was and a line is printed; `currDir` changes in no other case. -/
theorem cd_changes_only_to_directory {σ : Type} (srv : SftpServer σ) (c : SftpClient σ)
    (args : List Path) :
    (∀ arg s, args = [arg] → srv.stat c.remote (remotePath srv c arg).1 = Except.ok s →
      s.isDir = true → (cd srv c args).currDir = (remotePath srv c arg).1) ∧
    (∀ arg err, args = [arg] →
      srv.stat c.remote (remotePath srv c arg).1 = Except.error err →
      (cd srv c args).currDir = c.currDir ∧
        (cd srv c args).out = (remotePath srv c arg).2.out ++ [err]) ∧
    (∀ arg s, args = [arg] → srv.stat c.remote (remotePath srv c arg).1 = Except.ok s →
      s.isDir = false →
      (cd srv c args).currDir = c.currDir ∧
        (cd srv c args).out = (remotePath srv c arg).2.out ++ ["cannot change directory"]) ∧
    (args.length ≠ 1 →
      (cd srv c args).currDir = c.currDir ∧
        (cd srv c args).out = c.out ++ ["only one argument is accepted"]) ∧
    ((cd srv c args).currDir ≠ c.currDir →
      ∃ arg s, args = [arg] ∧ srv.stat c.remote (remotePath srv c arg).1 = Except.ok s ∧
        s.isDir = true ∧ (cd srv c args).currDir = (remotePath srv c arg).1) := by
  have hone : ∀ arg, cd srv c [arg] =
      match srv.stat c.remote (remotePath srv c arg).1 with
      | Except.error err => println (remotePath srv c arg).2 err
      | Except.ok s =>
        if !s.isDir then println (remotePath srv c arg).2 "cannot change directory"
        else { (remotePath srv c arg).2 with currDir := (remotePath srv c arg).1 } := by
    intro arg
    simp only [cd, remotePath_remote]
  have hmany : args.length ≠ 1 → cd srv c args = println c "only one argument is accepted" := by
    intro h
    match args, h with
    | [], _ => rfl
    | _ :: _ :: _, _ => rfl
    | [_], h => exact absurd rfl h
  refine ⟨?_, ?_, ?_, ?_, ?_⟩
  · intro arg s harg hs hdir
    subst harg
    rw [hone, hs]
    simp [hdir]
  · intro arg err harg hs
    subst harg
    rw [hone, hs]
    simp [println, remotePath_currDir]
  · intro arg s harg hs hdir
    subst harg
    rw [hone, hs]
    simp [hdir, println, remotePath_currDir]
  · intro h
    rw [hmany h]
    simp [println]
  · intro hne
    match args, hmany, hne with
    | [], hm, hne => exact absurd (by rw [hm (by simp)]; rfl) hne
    | _ :: _ :: _, hm, hne => exact absurd (by rw [hm (by simp)]; rfl) hne
    | [arg], _, hne =>
      rw [hone] at hne ⊢
      cases hs : srv.stat c.remote (remotePath srv c arg).1 with
      | error err =>
        rw [hs] at hne
        exact absurd (by simp [println, remotePath_currDir]) hne
      | ok s =>
        rw [hs] at hne
        cases hdir : s.isDir with
        | false => exact absurd (by simp [hdir, println, remotePath_currDir]) hne
        | true => exact ⟨arg, s, rfl, hs, hdir, by simp [hdir]⟩

theorem cd_changes_only_to_directory_witness :
    (cd memServer (shellAt fsFlat) [nLogs]).currDir = pLogs ∧
    ((cd memServer (shellAt fsFlat) [nAppLog]).currDir = pSrv ∧
      (cd memServer (shellAt fsFlat) [nAppLog]).out = ["cannot change directory"]) ∧
    ((cd memServer (shellAt fsFlat) [patLog]).currDir = pSrv ∧
      (cd memServer (shellAt fsFlat) [patLog]).out = ["file does not exist"]) ∧
    ((cd memServer (shellAt fsFlat) [nLogs, nLogs]).currDir = pSrv ∧
      (cd memServer (shellAt fsFlat) [nLogs, nLogs]).out = ["only one argument is accepted"]) :=
  ⟨(cd_changes_only_to_directory memServer (shellAt fsFlat) [nLogs]).1 nLogs
      { name := nLogs, isDir := true } rfl (by decide) rfl,
   (cd_changes_only_to_directory memServer (shellAt fsFlat) [nAppLog]).2.2.1 nAppLog
      { name := nAppLog, isDir := false } rfl (by decide) rfl,
   (cd_changes_only_to_directory memServer (shellAt fsFlat) [patLog]).2.1 patLog
      "file does not exist" rfl (by decide),
   (cd_changes_only_to_directory memServer (shellAt fsFlat) [nLogs, nLogs]).2.2.2.1
      (by decide)⟩

/-- C6: `remotePath` returns an absolute argument unchanged and otherwise the
server's `RealPath` of `currDir` joined with the argument; with `currDir`
`/a/b` and a server whose `RealPath` leaves clean paths unchanged, `c` resolves
to `/a/b/c` and `/x/y` to `/x/y`. -/
theorem remotePath_resolution {σ : Type} (srv : SftpServer σ) (c : SftpClient σ) (p : Path) :
    (filepathIsAbs p = true → (remotePath srv c p).1 = p) ∧
    (filepathIsAbs p = false →
      (remotePath srv c p).1 = (srv.realPath c.remote (pathJoin [c.currDir, p])).1) ∧
    (c.currDir = ['/', 'a', '/', 'b'] →
      (∀ q, pathClean q = q → srv.realPath c.remote q = (q, none)) →
      (remotePath srv c ['c']).1 = ['/', 'a', '/', 'b', '/', 'c'] ∧
        (remotePath srv c ['/', 'x', '/', 'y']).1 = ['/', 'x', '/', 'y']) := by
  refine ⟨?_, ?_, ?_⟩
  · intro h
    simp [remotePath, h]
  · intro h
    unfold remotePath
    rw [if_neg (by simp [h])]
    split <;> simp_all
  · intro hd hreal
    constructor
    · have hj : pathJoin [c.currDir, ['c']] = ['/', 'a', '/', 'b', '/', 'c'] := by
        rw [hd]; decide
      have hc : pathClean ['/', 'a', '/', 'b', '/', 'c'] = ['/', 'a', '/', 'b', '/', 'c'] := by
        decide
      unfold remotePath
      rw [if_neg (by decide), hj, hreal _ hc]
    · unfold remotePath
      rw [if_pos (by decide)]

theorem remotePath_resolution_witness :
    (remotePath memServer { shellAt fsFlat with currDir := ['/', 'a', '/', 'b'] } ['c']).1
        = ['/', 'a', '/', 'b', '/', 'c'] ∧
    (remotePath memServer { shellAt fsFlat with currDir := ['/', 'a', '/', 'b'] }
        ['/', 'x', '/', 'y']).1 = ['/', 'x', '/', 'y'] :=
  (remotePath_resolution memServer { shellAt fsFlat with currDir := ['/', 'a', '/', 'b'] }
      ['c']).2.2 rfl (fun q hq => by simp [memServer, hq])

theorem matchingPaths_cons_pos (pm : PathMatch) (dir base : Path) (entry : FileInfo)
    (rest : List FileInfo) (h : globMatches pm base entry = true) :
    matchingPaths pm dir base (entry :: rest)
      = pathJoin [dir, entry.name] :: matchingPaths pm dir base rest := by
  simp [matchingPaths, List.filter_cons, h]

theorem matchingPaths_cons_neg (pm : PathMatch) (dir base : Path) (entry : FileInfo)
    (rest : List FileInfo) (h : globMatches pm base entry = false) :
    matchingPaths pm dir base (entry :: rest) = matchingPaths pm dir base rest := by
  simp [matchingPaths, List.filter_cons, h]

theorem mem_matchingPaths (pm : PathMatch) (dir base : Path) (entries : List FileInfo)
    (p : Path) (hp : p ∈ matchingPaths pm dir base entries) :
    ∃ e ∈ entries, pm base e.name = (true, none) ∧ p = pathJoin [dir, e.name] := by
  simp only [matchingPaths, List.mem_map, List.mem_filter, globMatches,
    decide_eq_true_eq] at hp
  obtain ⟨e, ⟨he, hm⟩, hpe⟩ := hp
  exact ⟨e, he, hm, hpe.symm⟩

theorem removeEntry_remote {σ : Type} (srv : SftpServer σ) (c : SftpClient σ) (p : Path) :
    (removeEntry srv c p).remote = attemptEntry srv c.remote p := by
  unfold removeEntry attemptEntry
  cases hs : srv.stat c.remote p with
  | error err => rfl
  | ok info =>
    by_cases hd : info.isDir = true
    · rcases hr : srv.removeDirectory c.remote p with ⟨remote, err⟩
      cases err <;> simp [hd, hr, println]
    · rcases hr : srv.remove c.remote p with ⟨remote, err⟩
      cases err <;> simp [hd, hr, println]

theorem foldl_removeEntry_remote {σ : Type} (srv : SftpServer σ) :
    ∀ (ps : List Path) (c : SftpClient σ),
      (ps.foldl (removeEntry srv) c).remote = ps.foldl (attemptEntry srv) c.remote
  | [], _ => rfl
  | p :: ps, c => by
    rw [List.foldl_cons, List.foldl_cons, foldl_removeEntry_remote srv ps, removeEntry_remote]

/-- On a recording server the attempts add to the record exactly the requests
of `removalsSent`. -/
theorem foldl_attemptEntry_recording {σ : Type} (srv : SftpServer σ) :
    ∀ (ps : List Path) (st : σ × List Request),
      (ps.foldl (attemptEntry (recording srv)) st).2 = st.2 ++ removalsSent srv st.1 ps
  | [], st => by simp [removalsSent]
  | p :: ps, st => by
    rw [List.foldl_cons, foldl_attemptEntry_recording srv ps]
    unfold attemptEntry
    rw [removalsSent]
    simp only [recording]
    cases hs : srv.stat st.1 p with
    | error err => rfl
    | ok info =>
      by_cases hd : info.isDir = true <;> simp [hd]

theorem removalTargets_removalsSent {σ : Type} (srv : SftpServer σ) :
    ∀ (ps : List Path) (st : σ), (removalTargets (removalsSent srv st ps)).Sublist ps
  | [], _ => by simp [removalsSent, removalTargets]
  | p :: ps, st => by
    rw [removalsSent]
    cases hs : srv.stat st p with
    | error err => exact List.Sublist.cons _ (removalTargets_removalsSent srv ps st)
    | ok info =>
      by_cases hd : info.isDir = true
      · simp only [hd, if_true, removalTargets, List.map_cons, Request.target]
        exact List.Sublist.cons₂ _ (removalTargets_removalsSent srv ps _)
      · simp only [hd, if_false, removalTargets, List.map_cons, Request.target]
        exact List.Sublist.cons₂ _ (removalTargets_removalsSent srv ps _)

/-- C7: once the directory of the resolved pattern is listed, `rm` makes one
attempt (stat, then removal by kind when the stat succeeds) on each listed
entry whose name glob-matches the base name of the resolved pattern, in
listing order and whatever the server answered to earlier attempts, and on
nothing else: the remote state after `rm` is the state after exactly these
attempts, and every removal request the server receives names a matching
entry; so `*.log` over a directory holding the file `app.log` and the
directory `logs` removes `app.log` only. -/
theorem rm_attempts_exactly_matching {σ : Type} (srv : SftpServer σ) (pm : PathMatch)
    (pattern : Path) :
    (∀ (c : SftpClient σ) (entries : List FileInfo),
      srv.readDir c.remote (filepathDir (remotePath srv c pattern).1) = Except.ok entries →
      (rm srv pm c [pattern]).remote
        = (matchingPaths pm (filepathDir (remotePath srv c pattern).1)
            (filepathBase (remotePath srv c pattern).1) entries).foldl
            (attemptEntry srv) c.remote) ∧
    (∀ (c : SftpClient (σ × List Request)) (entries : List FileInfo),
      (recording srv).readDir c.remote
        (filepathDir (remotePath (recording srv) c pattern).1) = Except.ok entries →
      ∃ sent : List Request,
        (rm (recording srv) pm c [pattern]).remote.2 = c.remote.2 ++ sent ∧
        (removalTargets sent).Sublist
          (matchingPaths pm (filepathDir (remotePath (recording srv) c pattern).1)
            (filepathBase (remotePath (recording srv) c pattern).1) entries) ∧
        ∀ p ∈ removalTargets sent, ∃ e ∈ entries,
          pm (filepathBase (remotePath (recording srv) c pattern).1) e.name = (true, none) ∧
          p = pathJoin [filepathDir (remotePath (recording srv) c pattern).1, e.name]) ∧
    (∀ pm2 : PathMatch, pm2 patLog nAppLog = (true, none) → pm2 patLog nLogs = (false, none) →
      (rm (recording memServer) pm2 (recordedShellAt fsFlat) [patLog]).remote
        = ([(pSrv, true), (pLogs, true)], [Request.remove pAppLog])) := by
  have loop : ∀ (τ : Type) (sv : SftpServer τ) (dir base : Path) (entries : List FileInfo)
      (c : SftpClient τ),
      (rmLoop sv pm dir base c entries).remote
        = (matchingPaths pm dir base entries).foldl (attemptEntry sv) c.remote := by
    intro τ sv dir base entries
    induction entries with
    | nil =>
      intro c
      simp [rmLoop, matchingPaths]
    | cons entry rest ih =>
      intro c
      have hmg : matched pm base entry = globMatches pm base entry := by
        unfold matched globMatches
        rcases pm base entry.name with ⟨m, err⟩
        cases m <;> cases err <;> simp
      cases hm : globMatches pm base entry with
      | false =>
        rw [matchingPaths_cons_neg _ _ _ _ _ hm, ← ih c]
        simp [rmLoop, hmg, hm]
      | true =>
        rw [matchingPaths_cons_pos _ _ _ _ _ hm, List.foldl_cons, rmLoop]
        simp only [hmg, hm, Bool.not_true, Bool.false_eq_true, if_false]
        unfold attemptEntry
        cases hs : sv.stat c.remote (pathJoin [dir, entry.name]) with
        | error err => exact ih (println c err)
        | ok info =>
          by_cases hd : info.isDir = true
          · rcases hr : sv.removeDirectory c.remote (pathJoin [dir, entry.name])
              with ⟨remote, err⟩
            cases err with
            | none => simpa [hd, hr] using ih { c with remote := remote }
            | some e =>
              simpa [hd, hr] using ih (println { c with remote := remote } ("error: " ++ e))
          · rcases hr : sv.remove c.remote (pathJoin [dir, entry.name]) with ⟨remote, err⟩
            cases err with
            | none => simpa [hd, hr] using ih { c with remote := remote }
            | some e =>
              simpa [hd, hr] using ih (println { c with remote := remote } ("error: " ++ e))
  refine ⟨?_, ?_, ?_⟩
  · intro c entries hread
    simp only [rm, remotePath_remote, hread]
    rw [loop, remotePath_remote]
  · intro c entries hread
    refine ⟨removalsSent srv c.remote.1 _, ?_, removalTargets_removalsSent srv _ _, ?_⟩
    · simp only [rm, remotePath_remote, hread]
      rw [loop, foldl_attemptEntry_recording, remotePath_remote]
    · intro p hp
      exact mem_matchingPaths pm _ _ entries p
        ((removalTargets_removalsSent srv _ _).subset hp)
  · intro pm2 h1 h2
    have hp : remotePath (recording memServer) (recordedShellAt fsFlat) patLog
        = (['/', 's', 'r', 'v', '/', '*', '.', 'l', 'o', 'g'], recordedShellAt fsFlat) := by
      rfl
    have hd : filepathDir ['/', 's', 'r', 'v', '/', '*', '.', 'l', 'o', 'g'] = pSrv := by
      decide
    have hb : filepathBase ['/', 's', 'r', 'v', '/', '*', '.', 'l', 'o', 'g'] = patLog := by
      decide
    have hr : (recording memServer).readDir (recordedShellAt fsFlat).remote pSrv
        = Except.ok [{ name := nAppLog, isDir := false }, { name := nLogs, isDir := true }] := by
      decide
    have hj : pathJoin [pSrv, nAppLog] = pAppLog := by decide
    have hs : (recording memServer).stat (recordedShellAt fsFlat).remote pAppLog
        = Except.ok { name := nAppLog, isDir := false } := by decide
    have hrem : (recording memServer).remove (recordedShellAt fsFlat).remote pAppLog
        = (([(pSrv, true), (pLogs, true)], [Request.remove pAppLog]), none) := by decide
    simp only [rm, hp, hd, hb, hr, rmLoop, matched, h1, h2, hj, hs, hrem]
    simp

theorem rm_attempts_exactly_matching_witness :
    guardedServer.readDir (shellAt fsMixed).remote
        (filepathDir (remotePath guardedServer (shellAt fsMixed) patAny).1)
      = Except.ok [{ name := nAppLog, isDir := false }, { name := nLogs, isDir := true },
          { name := nZed, isDir := false }] ∧
    (rm guardedServer globPathMatch (shellAt fsMixed) [patAny]).remote
      = (matchingPaths globPathMatch
          (filepathDir (remotePath guardedServer (shellAt fsMixed) patAny).1)
          (filepathBase (remotePath guardedServer (shellAt fsMixed) patAny).1)
          [{ name := nAppLog, isDir := false }, { name := nLogs, isDir := true },
            { name := nZed, isDir := false }]).foldl (attemptEntry guardedServer)
          (shellAt fsMixed).remote ∧
    (rm guardedServer globPathMatch (shellAt fsMixed) [patAny]).remote
      = [(pSrv, true), (pAppLog, false), (pLogs, true), (pLogsOld, false)] ∧
    (rm guardedServer globPathMatch (shellAt fsMixed) [patAny]).out
      = ["permission denied", "error: directory not empty"] ∧
    (rm (recording guardedServer) globPathMatch (recordedShellAt fsMixed) [patAny]).remote.2
      = [Request.removeDirectory pLogs, Request.remove pZed] :=
  ⟨by decide,
   (rm_attempts_exactly_matching guardedServer globPathMatch patAny).1 (shellAt fsMixed)
     [{ name := nAppLog, isDir := false }, { name := nLogs, isDir := true },
       { name := nZed, isDir := false }] (by decide),
   by decide, by decide, by decide⟩

/-- C8 (as stated, refuted): `rm logs` in `/srv`, where the directory `logs`
holds the file `old`, sends the server one `RemoveDirectory` for `/srv/logs`
and nothing for `/srv/logs/old`; the server refuses, and the directory and the
file under it are both still there. -/
theorem rm_directory_not_recursive :
    (rm (recording memServer) globPathMatch (recordedShellAt fsNested) [nLogs]).remote
      = ([(pSrv, true), (pLogs, true), (pLogsOld, false)], [Request.removeDirectory pLogs]) ∧
    (rm (recording memServer) globPathMatch (recordedShellAt fsNested) [nLogs]).out
      = ["error: directory not empty"] := by
  decide

/-- C8 (amended): on the matched entries, in order, `rm` stats each one on the
server and, when that stat succeeds, sends exactly one removal request for the
same path, one `RemoveDirectory` when the stat reports a directory and one
`Remove` otherwise, printing what fails; the shell after `rm` is the shell
after exactly these steps, and the removal requests the server receives are
exactly these, so nothing is sent for what lies under a matched directory. -/
theorem rm_one_removal_per_matched_entry {σ : Type} (srv : SftpServer σ) (pm : PathMatch)
    (pattern : Path) :
    (∀ (c : SftpClient σ) (entries : List FileInfo),
      srv.readDir c.remote (filepathDir (remotePath srv c pattern).1) = Except.ok entries →
      rm srv pm c [pattern]
        = (matchingPaths pm (filepathDir (remotePath srv c pattern).1)
            (filepathBase (remotePath srv c pattern).1) entries).foldl (removeEntry srv)
            (remotePath srv c pattern).2) ∧
    (∀ (c : SftpClient (σ × List Request)) (entries : List FileInfo),
      (recording srv).readDir c.remote
        (filepathDir (remotePath (recording srv) c pattern).1) = Except.ok entries →
      (rm (recording srv) pm c [pattern]).remote.2
        = c.remote.2 ++ removalsSent srv c.remote.1
            (matchingPaths pm (filepathDir (remotePath (recording srv) c pattern).1)
              (filepathBase (remotePath (recording srv) c pattern).1) entries)) := by
  have loop : ∀ (τ : Type) (sv : SftpServer τ) (dir base : Path) (entries : List FileInfo)
      (c : SftpClient τ),
      rmLoop sv pm dir base c entries
        = (matchingPaths pm dir base entries).foldl (removeEntry sv) c := by
    intro τ sv dir base entries
    induction entries with
    | nil =>
      intro c
      simp [rmLoop, matchingPaths]
    | cons entry rest ih =>
      intro c
      have hmg : matched pm base entry = globMatches pm base entry := by
        unfold matched globMatches
        rcases pm base entry.name with ⟨m, err⟩
        cases m <;> cases err <;> simp
      cases hm : globMatches pm base entry with
      | false =>
        rw [matchingPaths_cons_neg _ _ _ _ _ hm, ← ih c]
        simp [rmLoop, hmg, hm]
      | true =>
        rw [matchingPaths_cons_pos _ _ _ _ _ hm, List.foldl_cons, ← ih, rmLoop]
        simp only [hmg, hm, Bool.not_true, Bool.false_eq_true, if_false]
        unfold removeEntry
        cases hs : sv.stat c.remote (pathJoin [dir, entry.name]) with
        | error err => rfl
        | ok info =>
          by_cases hd : info.isDir = true
          · rcases hr : sv.removeDirectory c.remote (pathJoin [dir, entry.name])
              with ⟨remote, err⟩
            cases err <;> simp [hd, hr]
          · rcases hr : sv.remove c.remote (pathJoin [dir, entry.name]) with ⟨remote, err⟩
            cases err <;> simp [hd, hr]
  constructor
  · intro c entries hread
    simp only [rm, remotePath_remote, hread]
    exact loop σ srv _ _ entries _
  · intro c entries hread
    simp only [rm, remotePath_remote, hread]
    rw [loop, foldl_removeEntry_remote, foldl_attemptEntry_recording, remotePath_remote]

theorem rm_one_removal_per_matched_entry_witness :
    (recording memServer).readDir (recordedShellAt fsMixed).remote
        (filepathDir (remotePath (recording memServer) (recordedShellAt fsMixed) patAny).1)
      = Except.ok [{ name := nAppLog, isDir := false }, { name := nLogs, isDir := true },
          { name := nZed, isDir := false }] ∧
    (rm (recording memServer) globPathMatch (recordedShellAt fsMixed) [patAny]).remote.2
      = (recordedShellAt fsMixed).remote.2 ++ removalsSent memServer
          (recordedShellAt fsMixed).remote.1
          (matchingPaths globPathMatch
            (filepathDir (remotePath (recording memServer) (recordedShellAt fsMixed) patAny).1)
            (filepathBase (remotePath (recording memServer) (recordedShellAt fsMixed) patAny).1)
            [{ name := nAppLog, isDir := false }, { name := nLogs, isDir := true },
              { name := nZed, isDir := false }]) ∧
    (rm (recording memServer) globPathMatch (recordedShellAt fsMixed) [patAny]).remote
      = ([(pSrv, true), (pLogs, true), (pLogsOld, false)],
         [Request.remove pAppLog, Request.removeDirectory pLogs, Request.remove pZed]) ∧
    (rm (recording memServer) globPathMatch (recordedShellAt fsMixed) [patAny]).out
      = ["error: directory not empty"] ∧
    (rm (recording memServer) globPathMatch (recordedShellAt fsFlat) [patAny]).remote
      = ([(pSrv, true)], [Request.remove pAppLog, Request.removeDirectory pLogs]) :=
  ⟨by decide,
   (rm_one_removal_per_matched_entry memServer globPathMatch patAny).2
     (recordedShellAt fsMixed)
     [{ name := nAppLog, isDir := false }, { name := nLogs, isDir := true },
       { name := nZed, isDir := false }] (by decide),
   by decide, by decide, by decide⟩

/-! ## Theorems: tunnel supervisor -/

/-- C9: in the supervisor loop a failure to construct the client stops the
goroutine with no further attempt; on a constructed client the outcomes of
`Start` and `Wait` never decide whether it stops; after such a pass it stops
only when cancellation is selected, closing that client, and on the tick it
goes on with a new pass, which constructs a fresh client. -/
theorem supervise_state_machine (id : Nat) (o : CycleOutcome) (rest : List CycleOutcome) :
    (∀ err, o.newClientErr = some err →
      supervise id (o :: rest)
        = ([SupEvent.logError "new chisel client" err, SupEvent.stopping], true)) ∧
    (o.newClientErr = none → o.selected = Selected.ctxDone →
      supervise id (o :: rest)
        = (runClient id o ++ [SupEvent.close id, SupEvent.stopping], true)) ∧
    (o.newClientErr = none → o.selected = Selected.tick →
      supervise id (o :: rest)
        = (runClient id o ++ (supervise (id + 1) rest).1, (supervise (id + 1) rest).2)) ∧
    (o.newClientErr = none → o.selected = Selected.tick →
      ∀ o2 rest2, rest = o2 :: rest2 → o2.newClientErr = none →
        ∃ later, (supervise id (o :: rest)).1
          = runClient id o ++ SupEvent.newClient (id + 1) :: later) ∧
    (∀ startErr waitErr,
      (supervise id ({ o with startErr := startErr, waitErr := waitErr } :: rest)).2
        = (supervise id (o :: rest)).2) := by
  refine ⟨?_, ?_, ?_, ?_, ?_⟩
  · intro err h
    simp [supervise, h]
  · intro h hs
    simp [supervise, h, hs]
  · intro h hs
    simp [supervise, h, hs]
  · intro h hs o2 rest2 hrest h2
    subst hrest
    have hnext : ∃ later, (supervise (id + 1) (o2 :: rest2)).1
        = SupEvent.newClient (id + 1) :: later := by
      cases hsel : o2.selected with
      | ctxDone =>
        simp only [supervise, h2, hsel, runClient]
        exact ⟨_, rfl⟩
      | tick =>
        simp only [supervise, h2, hsel, runClient]
        exact ⟨_, rfl⟩
    obtain ⟨later, hlater⟩ := hnext
    refine ⟨later, ?_⟩
    simp only [supervise, h, hs]
    rw [← hlater]
    simp only [supervise]
  · intro se we
    cases hn : o.newClientErr with
    | some err => simp [supervise, hn]
    | none =>
      cases hs : o.selected with
      | ctxDone => simp [supervise, hn, hs]
      | tick => simp [supervise, hn, hs]

theorem supervise_state_machine_witness :
    supervise 0 [passNoClient, passCancelled]
      = ([SupEvent.logError "new chisel client" "invalid server address", SupEvent.stopping],
         true) ∧
    supervise 3 [passCancelled, passFailedStart]
      = (runClient 3 passCancelled ++ [SupEvent.close 3, SupEvent.stopping], true) ∧
    supervise 0 [passFailedStart, passCancelled]
      = (runClient 0 passFailedStart ++ (supervise 1 [passCancelled]).1,
         (supervise 1 [passCancelled]).2) ∧
    (∃ later, (supervise 0 [passFailedStart, passCancelled]).1
      = runClient 0 passFailedStart ++ SupEvent.newClient 1 :: later) :=
  ⟨(supervise_state_machine 0 passNoClient [passCancelled]).1 "invalid server address" rfl,
   (supervise_state_machine 3 passCancelled [passFailedStart]).2.1 rfl rfl,
   (supervise_state_machine 0 passFailedStart [passCancelled]).2.2.1 rfl rfl,
   (supervise_state_machine 0 passFailedStart [passCancelled]).2.2.2.1 rfl rfl
     passCancelled [] rfl rfl⟩

/-! ## Theorems: session server -/

/-- C10 (as stated, refuted): a session whose PTY request carries a window of
120 columns by 40 rows, served by a process whose own terminal is 80 by 24,
gets its shell on a pseudo-terminal of 80 columns by 24 rows. -/
theorem pty_initial_size_not_from_request :
    startedSize (startSSHServer (Except.ok (80, 24)) sampleSession).1
        = some { Cols := 80, Rows := 24 } ∧
    startedSize (startSSHServer (Except.ok (80, 24)) sampleSession).1
        ≠ some { Cols := uint16 sampleSession.ptyReq.Window.Width,
                 Rows := uint16 sampleSession.ptyReq.Window.Height } := by
  decide

/-- C10 (amended): for every session that requested a PTY, the shell is
started on a pseudo-terminal whose initial columns and rows are the width and
height of the server process's own terminal as read when the server starts
(80 by 30 when that fails), whatever window the PTY request carries; the
windows delivered on the session's window channel are applied by later
resizes. -/
theorem pty_initial_size_from_server_terminal (termGetSize : Except String (Int × Int))
    (s : Session) (hpty : s.isPty = true) :
    startedSize (startSSHServer termGetSize s).1
      = some { Cols := uint16 (serverSize termGetSize).1,
               Rows := uint16 (serverSize termGetSize).2 } ∧
    (∀ req : Pty,
      startedSize (startSSHServer termGetSize { s with ptyReq := req }).1
        = startedSize (startSSHServer termGetSize s).1) ∧
    (∀ err, termGetSize = Except.error err → serverSize termGetSize = (80, 30)) ∧
    (s.ptyStartErr = none →
      (startSSHServer termGetSize s).2
        = s.winCh.map (fun win =>
            SessionStep.ptySetsize { Cols := uint16 win.Width, Rows := uint16 win.Height })) := by
  refine ⟨?_, ?_, ?_, ?_⟩
  · unfold startSSHServer sessionHandler
    cases hs : s.ptyStartErr <;> simp [hpty, startedSize]
  · intro req
    unfold startSSHServer sessionHandler
    cases hs : s.ptyStartErr <;> simp [hpty, hs, startedSize]
  · intro err h
    simp [serverSize, h]
  · intro h
    simp [startSSHServer, sessionHandler, hpty, h, resizeLoop]

theorem pty_initial_size_from_server_terminal_witness :
    sampleSession.isPty = true ∧
    startedSize (startSSHServer (Except.error "inappropriate ioctl for device") sampleSession).1
      = some { Cols := 80, Rows := 30 } :=
  ⟨rfl,
   (pty_initial_size_from_server_terminal (Except.error "inappropriate ioctl for device")
     sampleSession rfl).1⟩

end Tunnel
